import Mathlib

/-!
Shallow embedding of the deoxy pin/waveform/scheduler core.

JavaScript numbers are modelled as exact rationals extended with the IEEE
special values NaN and ±Infinity; this matters because the waveform code
divides by `cycles`, which can be zero, and then compares the resulting NaN
with `<=` (false in JavaScript). Hardware (`rpio`) calls are modelled by a
success oracle `HW` together with an explicit trace of the calls performed,
and each Promise-returning method is a function to a final pin state, a
trace, and a settled outcome.
-/

namespace Deoxy

/-- A JavaScript number: a finite (exact) rational, NaN, or ±Infinity. -/
inductive JSNum where
  | num (q : ℚ)
  | nan
  | inf
  | neginf
deriving DecidableEq

/-- JavaScript multiplication on numbers. -/
def jmul : JSNum → JSNum → JSNum
  | JSNum.nan, _ => JSNum.nan
  | _, JSNum.nan => JSNum.nan
  | JSNum.num a, JSNum.num b => JSNum.num (a * b)
  | JSNum.num a, JSNum.inf =>
      if 0 < a then JSNum.inf else if a < 0 then JSNum.neginf else JSNum.nan
  | JSNum.inf, JSNum.num b =>
      if 0 < b then JSNum.inf else if b < 0 then JSNum.neginf else JSNum.nan
  | JSNum.num a, JSNum.neginf =>
      if 0 < a then JSNum.neginf else if a < 0 then JSNum.inf else JSNum.nan
  | JSNum.neginf, JSNum.num b =>
      if 0 < b then JSNum.neginf else if b < 0 then JSNum.inf else JSNum.nan
  | JSNum.inf, JSNum.inf => JSNum.inf
  | JSNum.inf, JSNum.neginf => JSNum.neginf
  | JSNum.neginf, JSNum.inf => JSNum.neginf
  | JSNum.neginf, JSNum.neginf => JSNum.inf

/-- JavaScript subtraction on numbers. -/
def jsub : JSNum → JSNum → JSNum
  | JSNum.nan, _ => JSNum.nan
  | _, JSNum.nan => JSNum.nan
  | JSNum.num a, JSNum.num b => JSNum.num (a - b)
  | JSNum.num _, JSNum.inf => JSNum.neginf
  | JSNum.num _, JSNum.neginf => JSNum.inf
  | JSNum.inf, JSNum.num _ => JSNum.inf
  | JSNum.neginf, JSNum.num _ => JSNum.neginf
  | JSNum.inf, JSNum.inf => JSNum.nan
  | JSNum.inf, JSNum.neginf => JSNum.inf
  | JSNum.neginf, JSNum.inf => JSNum.neginf
  | JSNum.neginf, JSNum.neginf => JSNum.nan

/-- JavaScript division on numbers; division of a nonzero finite number by
(positive) zero gives +∞/−∞ and `0 / 0` gives NaN. -/
def jdiv : JSNum → JSNum → JSNum
  | JSNum.nan, _ => JSNum.nan
  | _, JSNum.nan => JSNum.nan
  | JSNum.num a, JSNum.num b =>
      if b = 0 then
        if a = 0 then JSNum.nan else if 0 < a then JSNum.inf else JSNum.neginf
      else JSNum.num (a / b)
  | JSNum.num _, JSNum.inf => JSNum.num 0
  | JSNum.num _, JSNum.neginf => JSNum.num 0
  | JSNum.inf, JSNum.num b => if b < 0 then JSNum.neginf else JSNum.inf
  | JSNum.neginf, JSNum.num b => if b < 0 then JSNum.inf else JSNum.neginf
  | JSNum.inf, JSNum.inf => JSNum.nan
  | JSNum.inf, JSNum.neginf => JSNum.nan
  | JSNum.neginf, JSNum.inf => JSNum.nan
  | JSNum.neginf, JSNum.neginf => JSNum.nan

/-- JavaScript `<=` on numbers: any comparison involving NaN is false. -/
def jleB : JSNum → JSNum → Bool
  | JSNum.nan, _ => false
  | _, JSNum.nan => false
  | JSNum.num a, JSNum.num b => decide (a ≤ b)
  | JSNum.num _, JSNum.inf => true
  | JSNum.num _, JSNum.neginf => false
  | JSNum.inf, JSNum.num _ => false
  | JSNum.inf, JSNum.inf => true
  | JSNum.inf, JSNum.neginf => false
  | JSNum.neginf, _ => true

/-- `let cycles = Math.ceil(frequency * duration / 1000)` — the waveform
cycle count shared by `doPWM` and `pwm` (finite inputs, so the value is the
exact integer ceiling). -/
def cyclesOf (frequency duration : ℚ) : ℤ :=
  ⌈frequency * duration / 1000⌉

/-- `duration = cycles / frequency * 1000` — the actual run duration in ms
after rounding the request up to a whole number of cycles (NaN when
`cycles = 0` and `frequency = 0`). -/
def actualDurationOf (frequency duration : ℚ) : JSNum :=
  jmul (jdiv (JSNum.num (cyclesOf frequency duration)) (JSNum.num frequency))
    (JSNum.num 1000)

/-- `let antiPulseWidth = (duration - cycles * pulseWidth) / cycles` — the
per-cycle low time (the spec's `lowWidth`); NaN whenever `cycles = 0`. -/
def antiPulseWidthOf (pulseWidth frequency duration : ℚ) : JSNum :=
  jdiv
    (jsub (actualDurationOf frequency duration)
      (jmul (JSNum.num (cyclesOf frequency duration)) (JSNum.num pulseWidth)))
    (JSNum.num (cyclesOf frequency duration))

/-- `PinState`: `unknown: -1, closed: 0, open: 1` (the `open` member is named
`opened` here because `open` is a Lean keyword). -/
inductive PinState where
  | unknown
  | closed
  | opened
deriving DecidableEq

/-- A Pin: `constructor(number) { this.number = number; this.state = PinState.unknown }`.
Pin numbers are JavaScript numbers, modelled as rationals. -/
structure Pin where
  number : ℚ
  state : PinState
deriving DecidableEq

/-- `new Pin(number)`. -/
def mkPin (number : ℚ) : Pin :=
  { number := number, state := PinState.unknown }

/-- `get isOpen() { return this.state == PinState.open }`. -/
def Pin.isOpen (p : Pin) : Bool :=
  p.state = PinState.opened

/-- `get isClosed() { return this.state == PinState.closed }`. -/
def Pin.isClosed (p : Pin) : Bool :=
  p.state = PinState.closed

/-- The mode argument of `rpio.open`. -/
inductive Mode where
  | OUTPUT
  | PWM
deriving DecidableEq

/-- The reset-behavior argument of `rpio.close`. -/
inductive CloseBehavior where
  | PIN_RESET
  | PIN_PRESERVE
deriving DecidableEq

/-- One call into the `rpio` hardware library (plus the `setTimeout` delay
marker used by `setHighFor`).  `rpio.HIGH = 1` and `rpio.LOW = 0`. -/
inductive HWCall where
  | rpioOpen (pin : ℚ) (mode : Mode)
  | rpioWrite (pin : ℚ) (level : ℚ)
  | rpioClose (pin : ℚ) (behavior : CloseBehavior)
  | rpioMsleep (ms : JSNum)
  | rpioPwmSetClockDivider (divider : ℕ)
  | rpioPwmSetRange (pin : ℚ) (range : ℕ)
  | rpioPwmSetData (pin : ℚ) (data : ℕ)
  | timeoutDelay (ms : JSNum)
deriving DecidableEq

/-- Success oracle for the fallible `rpio` calls, per pin number: whether
`rpio.open`, `rpio.write`, and `rpio.close` succeed (throw when false). -/
structure HW where
  openOk : ℚ → Bool
  writeOk : ℚ → Bool
  closeOk : ℚ → Bool

/-- Errors thrown by the pin layer or the underlying `rpio` calls. -/
inductive Err where
  | rpioOpenError (pin : ℚ)
  | rpioWriteError (pin : ℚ)
  | rpioCloseError (pin : ℚ)
  | waveformConfigError (pulseWidth frequency : ℚ)
  | notSupported (pin : ℚ)
deriving DecidableEq

/-- A dynamically typed JavaScript value as settled into a promise: the
methods settle either with a `Pin` or with an `Error`. -/
inductive JSValue where
  | pinV (p : Pin)
  | errV (e : Err)
deriving DecidableEq

/-- The settled state of the promise a pin method returns. -/
inductive Outcome where
  | fulfilled (v : JSValue)
  | rejected (v : JSValue)
deriving DecidableEq

/-- Result of running one pin method: the final state of `this`, the list of
hardware calls performed (in order), and the settled promise outcome. -/
structure PinRun where
  pin : Pin
  trace : List HWCall
  outcome : Outcome
deriving DecidableEq

/-- `open(force = false)`: no-op success when already open and not forced;
otherwise `rpio.open(number, OUTPUT)`, setting `state = open` on success and
`state = unknown` on failure (rejecting with the thrown error). -/
def Pin.openPin (p : Pin) (hw : HW) (force : Bool) : PinRun :=
  if p.isOpen && !force then
    { pin := p, trace := [], outcome := Outcome.fulfilled (JSValue.pinV p) }
  else if hw.openOk p.number then
    let p1 : Pin := { number := p.number, state := PinState.opened }
    { pin := p1, trace := [HWCall.rpioOpen p.number Mode.OUTPUT],
      outcome := Outcome.fulfilled (JSValue.pinV p1) }
  else
    let p1 : Pin := { number := p.number, state := PinState.unknown }
    { pin := p1, trace := [HWCall.rpioOpen p.number Mode.OUTPUT],
      outcome := Outcome.rejected (JSValue.errV (Err.rpioOpenError p.number)) }

/-- `close(then, force = false)`: no-op success when already closed and not
forced; otherwise `rpio.close(number, then)` with `then` defaulting to
`PIN_RESET`.  Note the source never updates `this.state` here. -/
def Pin.close (p : Pin) (hw : HW) (thenB : Option CloseBehavior) (force : Bool) : PinRun :=
  if p.isClosed && !force then
    { pin := p, trace := [], outcome := Outcome.fulfilled (JSValue.pinV p) }
  else
    let b := match thenB with
      | none => CloseBehavior.PIN_RESET
      | some b0 => b0
    if hw.closeOk p.number then
      { pin := p, trace := [HWCall.rpioClose p.number b],
        outcome := Outcome.fulfilled (JSValue.pinV p) }
    else
      { pin := p, trace := [HWCall.rpioClose p.number b],
        outcome := Outcome.rejected (JSValue.errV (Err.rpioCloseError p.number)) }

/-- `write(value)`.  The source builds `new Promise((reject, resolve) => ...)`
with the executor parameters in swapped order, so the name `resolve` is bound
to the real reject capability and vice versa: the `.then(resolve)` at the end
of the successful chain REJECTS the outer promise with the pin, and the
`.catch(reject)` on any failure FULFILLS it with the error.  The chain itself
is `open()`, then `rpio.write(number, value ? HIGH : LOW)`, then
`close(PIN_PRESERVE)`. -/
def Pin.write (p : Pin) (hw : HW) (value : Bool) : PinRun :=
  let o := p.openPin hw false
  match o.outcome with
  | Outcome.rejected e =>
      { pin := o.pin, trace := o.trace, outcome := Outcome.fulfilled e }
  | Outcome.fulfilled _ =>
      let lvl : ℚ := if value then 1 else 0
      if hw.writeOk p.number then
        let c := o.pin.close hw (some CloseBehavior.PIN_PRESERVE) false
        match c.outcome with
        | Outcome.fulfilled v =>
            { pin := c.pin, trace := o.trace ++ [HWCall.rpioWrite p.number lvl] ++ c.trace,
              outcome := Outcome.rejected v }
        | Outcome.rejected e =>
            { pin := c.pin, trace := o.trace ++ [HWCall.rpioWrite p.number lvl] ++ c.trace,
              outcome := Outcome.fulfilled e }
      else
        { pin := o.pin, trace := o.trace ++ [HWCall.rpioWrite p.number lvl],
          outcome := Outcome.fulfilled (JSValue.errV (Err.rpioWriteError p.number)) }

/-- `setHighFor(duration, perSecond = 1000)`.  Same swapped
`new Promise((reject, resolve) => ...)` executor as `write`: the delayed
`close()` success path calls the real reject capability and every failure
path calls the real resolve capability.  The chain is `open()`, then
`rpio.write(number, HIGH)`, then after `duration * 1000 / perSecond` ms (via
`setTimeout`) a default `close()`. -/
def Pin.setHighFor (p : Pin) (hw : HW) (duration perSecond : ℚ) : PinRun :=
  let o := p.openPin hw false
  match o.outcome with
  | Outcome.rejected e =>
      { pin := o.pin, trace := o.trace, outcome := Outcome.fulfilled e }
  | Outcome.fulfilled _ =>
      if hw.writeOk p.number then
        let ms := jdiv (jmul (JSNum.num duration) (JSNum.num 1000)) (JSNum.num perSecond)
        let c := o.pin.close hw none false
        match c.outcome with
        | Outcome.fulfilled v =>
            { pin := c.pin,
              trace := o.trace ++ [HWCall.rpioWrite p.number 1, HWCall.timeoutDelay ms] ++ c.trace,
              outcome := Outcome.rejected v }
        | Outcome.rejected e =>
            { pin := c.pin,
              trace := o.trace ++ [HWCall.rpioWrite p.number 1, HWCall.timeoutDelay ms] ++ c.trace,
              outcome := Outcome.fulfilled e }
      else
        { pin := o.pin, trace := o.trace ++ [HWCall.rpioWrite p.number 1],
          outcome := Outcome.fulfilled (JSValue.errV (Err.rpioWriteError p.number)) }

/-- The hardware calls of one `doPWM` duty cycle:
`rpio.write(HIGH); rpio.msleep(pulseWidth); rpio.write(LOW); rpio.msleep(antiPulseWidth)`. -/
def doPWMCycle (number : ℚ) (pulseWidth antiPulseWidth : JSNum) : List HWCall :=
  [HWCall.rpioWrite number 1, HWCall.rpioMsleep pulseWidth,
   HWCall.rpioWrite number 0, HWCall.rpioMsleep antiPulseWidth]

/-- `doPWM(pulseWidth, frequency, duration)` (executor parameters in the
normal `(resolve, reject)` order here): `open()`, then compute the waveform,
throw a waveform-configuration `Error` when `antiPulseWidth <= 0` (a NaN
`antiPulseWidth`, arising from `cycles = 0`, compares false and does not
throw), then run `cycles` high/low iterations, then a default `close()`.
The loop runs zero times when `cycles <= 0`; when the oracle makes
`rpio.write` throw, the first write attempt of the first iteration rejects
the chain before any sleep or close. -/
def Pin.doPWM (p : Pin) (hw : HW) (pulseWidth frequency duration : ℚ) : PinRun :=
  let o := p.openPin hw false
  match o.outcome with
  | Outcome.rejected e =>
      { pin := o.pin, trace := o.trace, outcome := Outcome.rejected e }
  | Outcome.fulfilled _ =>
      let cycles := cyclesOf frequency duration
      let anti := antiPulseWidthOf pulseWidth frequency duration
      if jleB anti (JSNum.num 0) then
        { pin := o.pin, trace := o.trace,
          outcome := Outcome.rejected (JSValue.errV (Err.waveformConfigError pulseWidth frequency)) }
      else if 0 < cycles ∧ hw.writeOk p.number = false then
        { pin := o.pin, trace := o.trace ++ [HWCall.rpioWrite p.number 1],
          outcome := Outcome.rejected (JSValue.errV (Err.rpioWriteError p.number)) }
      else
        let loopTrace := List.flatten (List.replicate cycles.toNat
          (doPWMCycle p.number (JSNum.num pulseWidth) anti))
        let c := o.pin.close hw none false
        match c.outcome with
        | Outcome.fulfilled v =>
            { pin := c.pin, trace := o.trace ++ loopTrace ++ c.trace,
              outcome := Outcome.fulfilled v }
        | Outcome.rejected e =>
            { pin := c.pin, trace := o.trace ++ loopTrace ++ c.trace,
              outcome := Outcome.rejected e }

/-- The hardware calls of one `pwm` duty cycle:
`rpio.pwmSetData(number, 1024); rpio.msleep(pulseWidth); rpio.write(number, 0); rpio.msleep(antiPulseWidth)`. -/
def pwmCycle (number : ℚ) (pulseWidth antiPulseWidth : JSNum) : List HWCall :=
  [HWCall.rpioPwmSetData number 1024, HWCall.rpioMsleep pulseWidth,
   HWCall.rpioWrite number 0, HWCall.rpioMsleep antiPulseWidth]

/-- `pwm(pulseWidth, frequency, duration)`: rejects with the
pin-12-only `Error` when `this.number !== 12`, before any hardware call;
otherwise `rpio.open(number, PWM)` (setting `state = unknown` on success),
`rpio.pwmSetClockDivider(64)`, `rpio.pwmSetRange(number, 1024)`, then the
same waveform computation and `antiPulseWidth <= 0` guard as `doPWM`, then
`cycles` duty-register iterations, finally `resolve(this)`. -/
def Pin.pwm (p : Pin) (hw : HW) (pulseWidth frequency duration : ℚ) : PinRun :=
  if p.number ≠ 12 then
    { pin := p, trace := [], outcome := Outcome.rejected (JSValue.errV (Err.notSupported p.number)) }
  else if hw.openOk p.number = false then
    { pin := p, trace := [HWCall.rpioOpen p.number Mode.PWM],
      outcome := Outcome.rejected (JSValue.errV (Err.rpioOpenError p.number)) }
  else
    let p1 : Pin := { number := p.number, state := PinState.unknown }
    let pre := [HWCall.rpioOpen p.number Mode.PWM, HWCall.rpioPwmSetClockDivider 64,
      HWCall.rpioPwmSetRange p.number 1024]
    let cycles := cyclesOf frequency duration
    let anti := antiPulseWidthOf pulseWidth frequency duration
    if jleB anti (JSNum.num 0) then
      { pin := p1, trace := pre,
        outcome := Outcome.rejected (JSValue.errV (Err.waveformConfigError pulseWidth frequency)) }
    else if 0 < cycles ∧ hw.writeOk p.number = false then
      { pin := p1,
        trace := pre ++ [HWCall.rpioPwmSetData p.number 1024,
          HWCall.rpioMsleep (JSNum.num pulseWidth), HWCall.rpioWrite p.number 0],
        outcome := Outcome.rejected (JSValue.errV (Err.rpioWriteError p.number)) }
    else
      { pin := p1,
        trace := pre ++ List.flatten (List.replicate cycles.toNat
          (pwmCycle p.number (JSNum.num pulseWidth) anti)),
        outcome := Outcome.fulfilled (JSValue.pinV p1) }

/-- A hardware call that drives current onto the pin: a logic-level write or
a duty-register write. -/
def isDrive : HWCall → Bool
  | HWCall.rpioWrite _ _ => true
  | HWCall.rpioPwmSetData _ _ => true
  | _ => false

/-- A hardware oracle on which every `rpio` call succeeds. -/
def hwAllOk : HW :=
  { openOk := fun _ => true, writeOk := fun _ => true, closeOk := fun _ => true }

/-- A hardware oracle on which `rpio.open` always throws. -/
def hwOpenFails : HW :=
  { openOk := fun _ => false, writeOk := fun _ => true, closeOk := fun _ => true }

/-- The second argument the scheduler passes to its callback: JavaScript is
dynamically typed, so it can be a list of job handles or a single scalar
handle. -/
inductive SchedValue (Job : Type) where
  | list (jobs : List Job)
  | single (job : Job)
deriving DecidableEq

/-- Result of one scheduler entry point: the `(time, event)` pairs handed to
the platform `schedule.scheduleJob` primitive (in order), whether the
callback's first argument was an `Error`, and the callback's second argument
(`none` = `undefined`). -/
structure SchedRun (Time Event Job : Type) where
  scheduled : List (Time × Event)
  cbErr : Bool
  cbVal : Option (SchedValue Job)
deriving DecidableEq

/-- `scheduleEventsForTimes(events, times, callback)`: on a length mismatch
invokes `callback(new Error(...))` (one argument — the second is
`undefined`) and schedules nothing; otherwise schedules
`schedule.scheduleJob(times[i], events[i])` for each index in order,
collects the handles into `jobs`, and invokes `callback(null, jobs)`.  The
platform primitive `schedule.scheduleJob` is the external `node-schedule`
library, abstracted as the parameter `sj`. -/
def scheduleEventsForTimes {Time Event Job : Type} (sj : Time → Event → Job)
    (events : List Event) (times : List Time) : SchedRun Time Event Job :=
  if times.length ≠ events.length then
    { scheduled := [], cbErr := true, cbVal := none }
  else
    { scheduled := times.zip events, cbErr := false,
      cbVal := some (SchedValue.list (List.zipWith sj times events)) }

/-- `scheduleEventForTime(event, time, callback)`: delegates to
`scheduleEventsForTimes([event], [time], callback)` with the caller's
callback passed through unchanged. -/
def scheduleEventForTime {Time Event Job : Type} (sj : Time → Event → Job)
    (event : Event) (time : Time) : SchedRun Time Event Job :=
  scheduleEventsForTimes sj [event] [time]

/-- `Date.now()` modelled as reading the `k`-th value of a clock stream and
advancing the read counter. -/
def dateNow (clock : ℕ → ℤ) (k : ℕ) : ℤ × ℕ :=
  (clock k, k + 1)

/-- `scheduleEventsForIntervals(events, intervals, callback)`: reads
`Date.now()` once, converts each interval to the absolute time
`new Date(now + interval)`, and delegates to `scheduleEventsForTimes`.
Returns the run together with the advanced clock-read counter. -/
def scheduleEventsForIntervals {Event Job : Type} (sj : ℤ → Event → Job)
    (clock : ℕ → ℤ) (k : ℕ) (events : List Event) (intervals : List ℤ) :
    SchedRun ℤ Event Job × ℕ :=
  let now := (dateNow clock k).1
  let k1 := (dateNow clock k).2
  let times := intervals.map (fun interval => now + interval)
  (scheduleEventsForTimes sj events times, k1)

/-- `scheduleEventForInterval(event, interval, callback)`: delegates to
`scheduleEventsForIntervals([event], [interval], callback)`. -/
def scheduleEventForInterval {Event Job : Type} (sj : ℤ → Event → Job)
    (clock : ℕ → ℤ) (k : ℕ) (event : Event) (interval : ℤ) :
    SchedRun ℤ Event Job × ℕ :=
  scheduleEventsForIntervals sj clock k [event] [interval]

theorem jmul_num_num (a b : ℚ) : jmul (JSNum.num a) (JSNum.num b) = JSNum.num (a * b) := rfl

theorem jsub_num_num (a b : ℚ) : jsub (JSNum.num a) (JSNum.num b) = JSNum.num (a - b) := rfl

theorem jdiv_num_num (a b : ℚ) (hb : b ≠ 0) :
    jdiv (JSNum.num a) (JSNum.num b) = JSNum.num (a / b) := by
  simp [jdiv, hb]

theorem jdiv_zero_zero : jdiv (JSNum.num 0) (JSNum.num 0) = JSNum.nan := by
  simp [jdiv]

theorem jleB_num_num (a b : ℚ) : jleB (JSNum.num a) (JSNum.num b) = decide (a ≤ b) := rfl

theorem jleB_nan_left (x : JSNum) : jleB JSNum.nan x = false := by
  cases x <;> rfl

theorem actualDurationOf_of_freq_ne (frequency duration : ℚ) (hf : frequency ≠ 0) :
    actualDurationOf frequency duration =
      JSNum.num ((cyclesOf frequency duration : ℚ) / frequency * 1000) := by
  rw [actualDurationOf, jdiv_num_num _ _ hf, jmul_num_num]

theorem antiPulseWidthOf_of_ne (pulseWidth frequency duration : ℚ) (hf : frequency ≠ 0)
    (hc : (cyclesOf frequency duration : ℚ) ≠ 0) :
    antiPulseWidthOf pulseWidth frequency duration =
      JSNum.num (((cyclesOf frequency duration : ℚ) / frequency * 1000 -
        (cyclesOf frequency duration : ℚ) * pulseWidth) / (cyclesOf frequency duration : ℚ)) := by
  rw [antiPulseWidthOf, actualDurationOf_of_freq_ne _ _ hf, jmul_num_num, jsub_num_num,
    jdiv_num_num _ _ hc]

theorem antiPulseWidthOf_nan (pulseWidth frequency duration : ℚ)
    (hc : cyclesOf frequency duration = 0) :
    antiPulseWidthOf pulseWidth frequency duration = JSNum.nan := by
  by_cases hf : frequency = 0
  · rw [antiPulseWidthOf, actualDurationOf, hc, hf]
    simp [jdiv, jmul, jsub]
  · rw [antiPulseWidthOf, actualDurationOf_of_freq_ne _ _ hf, hc]
    simp [jmul, jsub, jdiv]

theorem cyclesOf_50_5000 : cyclesOf 50 5000 = 250 := by
  unfold cyclesOf; norm_num

theorem cyclesOf_2_1000 : cyclesOf 2 1000 = 2 := by
  unfold cyclesOf; norm_num

theorem cyclesOf_neg1_1000 : cyclesOf (-1) 1000 = -1 := by
  unfold cyclesOf; rw [Int.ceil_eq_iff]; norm_num

theorem antiPulseWidthOf_at_50Hz : antiPulseWidthOf (3 / 2) 50 5000 = JSNum.num (37 / 2) := by
  rw [antiPulseWidthOf_of_ne _ _ _ (by norm_num) (by rw [cyclesOf_50_5000]; norm_num),
    cyclesOf_50_5000]
  norm_num

theorem antiPulseWidthOf_overlong_pulse : antiPulseWidthOf 1000 2 1000 = JSNum.num (-500) := by
  rw [antiPulseWidthOf_of_ne _ _ _ (by norm_num) (by rw [cyclesOf_2_1000]; norm_num),
    cyclesOf_2_1000]
  norm_num

theorem antiPulseWidthOf_neg_freq : antiPulseWidthOf 1 (-1) 1000 = JSNum.num (-1001) := by
  rw [antiPulseWidthOf_of_ne _ _ _ (by norm_num) (by rw [cyclesOf_neg1_1000]; norm_num),
    cyclesOf_neg1_1000]
  norm_num

/-- C1: For every valid input `(pulseWidth, frequency, duration)` with
`frequency > 0`, the waveform computation used by `doPWM` satisfies
`cycles = ceil(frequency * duration / 1000)`,
`actualDuration = cycles / frequency * 1000`, and
`lowWidth = (actualDuration - cycles * pulseWidth) / cycles` (the latter
whenever `cycles ≠ 0`; for `cycles = 0` it is NaN); and whenever
`lowWidth > 0`, `cycles * (pulseWidth + lowWidth) = actualDuration` and
`actualDuration ≥ duration` — exactly, since the model computes with exact
rationals. -/
theorem doPWM_waveform_formulas (pulseWidth frequency duration : ℚ) (hf : 0 < frequency) :
    cyclesOf frequency duration = ⌈frequency * duration / 1000⌉ ∧
    actualDurationOf frequency duration =
      JSNum.num ((cyclesOf frequency duration : ℚ) / frequency * 1000) ∧
    ((cyclesOf frequency duration : ℚ) ≠ 0 →
      antiPulseWidthOf pulseWidth frequency duration =
        JSNum.num (((cyclesOf frequency duration : ℚ) / frequency * 1000 -
          (cyclesOf frequency duration : ℚ) * pulseWidth) /
            (cyclesOf frequency duration : ℚ))) ∧
    (∀ l : ℚ, antiPulseWidthOf pulseWidth frequency duration = JSNum.num l → 0 < l →
      (cyclesOf frequency duration : ℚ) * (pulseWidth + l) =
        (cyclesOf frequency duration : ℚ) / frequency * 1000 ∧
      duration ≤ (cyclesOf frequency duration : ℚ) / frequency * 1000) := by
  refine ⟨rfl, actualDurationOf_of_freq_ne _ _ hf.ne',
    fun hc => antiPulseWidthOf_of_ne _ _ _ hf.ne' hc, fun l hl hlpos => ?_⟩
  by_cases hc : (cyclesOf frequency duration : ℚ) = 0
  · have hz : cyclesOf frequency duration = 0 := by exact_mod_cast hc
    rw [antiPulseWidthOf_nan _ _ _ hz] at hl
    exact absurd hl (by simp)
  · rw [antiPulseWidthOf_of_ne _ _ _ hf.ne' hc] at hl
    injection hl with hl1
    constructor
    · rw [← hl1]
      field_simp
      ring
    · have hle : frequency * duration / 1000 ≤ (cyclesOf frequency duration : ℚ) :=
        Int.le_ceil _
      have h2 : frequency * duration ≤ (cyclesOf frequency duration : ℚ) * 1000 :=
        (div_le_iff₀ (by norm_num : (0 : ℚ) < 1000)).mp hle
      rw [div_mul_eq_mul_div, le_div_iff₀ hf, mul_comm]
      linarith

theorem doPWM_waveform_formulas_witness :
    (0 : ℚ) < 50 ∧
    (cyclesOf 50 5000 : ℚ) * (3 / 2 + 37 / 2) = (cyclesOf 50 5000 : ℚ) / 50 * 1000 ∧
    (5000 : ℚ) ≤ (cyclesOf 50 5000 : ℚ) / 50 * 1000 := by
  have h := (doPWM_waveform_formulas (3 / 2) 50 5000 (by norm_num)).2.2.2 (37 / 2)
    antiPulseWidthOf_at_50Hz (by norm_num)
  exact ⟨by norm_num, h.1, h.2⟩

/-- C2 counterexample: at `pulseWidth = 1000, frequency = 2, duration = 1000`
the computed low width is `-500 ≤ 0` and `doPWM` does reject with the
waveform-configuration error, but a hardware call — the `rpio.open` claim —
has already been performed before the error is raised, contradicting the
claim that no hardware call occurs. -/
theorem doPWM_lowWidth_error_preceded_by_open :
    jleB (antiPulseWidthOf 1000 2 1000) (JSNum.num 0) = true ∧
    ((mkPin 7).doPWM hwAllOk 1000 2 1000).outcome =
      Outcome.rejected (JSValue.errV (Err.waveformConfigError 1000 2)) ∧
    ((mkPin 7).doPWM hwAllOk 1000 2 1000).trace = [HWCall.rpioOpen 7 Mode.OUTPUT] ∧
    ((mkPin 7).doPWM hwAllOk 1000 2 1000).trace ≠ [] := by
  refine ⟨by rw [antiPulseWidthOf_overlong_pulse, jleB_num_num]; norm_num, ?_, ?_, ?_⟩ <;>
    simp [Pin.doPWM, Pin.openPin, mkPin, Pin.isOpen, hwAllOk,
      antiPulseWidthOf_overlong_pulse, jleB_num_num]

/-- C2 (amended): For every input whose computed low width is `<= 0` in the
JavaScript sense, `doPWM` (when its open claim succeeds) and `pwm` on the
hardware-PWM pin 12 (when its PWM open succeeds) reject with the
waveform-configuration error and no drive call (`rpio.write` or duty-register
write) occurs before the error; however hardware calls do precede the error:
`doPWM` first claims the pin with `rpio.open(number, OUTPUT)` (unless it was
already open), and `pwm` first opens PWM mode, sets the clock divider, and
sets the range. -/
theorem doPWM_pwm_lowWidth_config_error (p q : Pin) (hw : HW)
    (pulseWidth frequency duration : ℚ)
    (hlw : jleB (antiPulseWidthOf pulseWidth frequency duration) (JSNum.num 0) = true)
    (hopenP : hw.openOk p.number = true)
    (hq : q.number = 12) (hopenQ : hw.openOk q.number = true) :
    (p.doPWM hw pulseWidth frequency duration).outcome =
      Outcome.rejected (JSValue.errV (Err.waveformConfigError pulseWidth frequency)) ∧
    (∀ c ∈ (p.doPWM hw pulseWidth frequency duration).trace, isDrive c = false) ∧
    (p.isOpen = false →
      (p.doPWM hw pulseWidth frequency duration).trace =
        [HWCall.rpioOpen p.number Mode.OUTPUT]) ∧
    (q.pwm hw pulseWidth frequency duration).outcome =
      Outcome.rejected (JSValue.errV (Err.waveformConfigError pulseWidth frequency)) ∧
    (q.pwm hw pulseWidth frequency duration).trace =
      [HWCall.rpioOpen q.number Mode.PWM, HWCall.rpioPwmSetClockDivider 64,
        HWCall.rpioPwmSetRange q.number 1024] := by
  have hopenQ12 : hw.openOk 12 = true := by rw [← hq]; exact hopenQ
  refine ⟨?_, ?_, ?_, ?_, ?_⟩
  · by_cases hp : p.isOpen <;> simp [Pin.doPWM, Pin.openPin, hp, hopenP, hlw]
  · by_cases hp : p.isOpen <;> simp [Pin.doPWM, Pin.openPin, hp, hopenP, hlw, isDrive]
  · intro hp
    simp [Pin.doPWM, Pin.openPin, hp, hopenP, hlw]
  · simp [Pin.pwm, hq, hopenQ12, hlw]
  · simp [Pin.pwm, hq, hopenQ12, hlw]

theorem doPWM_pwm_lowWidth_config_error_witness :
    ((mkPin 7).doPWM hwAllOk 1000 2 1000).outcome =
      Outcome.rejected (JSValue.errV (Err.waveformConfigError 1000 2)) ∧
    ((mkPin 12).pwm hwAllOk 1000 2 1000).outcome =
      Outcome.rejected (JSValue.errV (Err.waveformConfigError 1000 2)) ∧
    ((mkPin 12).pwm hwAllOk 1000 2 1000).trace =
      [HWCall.rpioOpen 12 Mode.PWM, HWCall.rpioPwmSetClockDivider 64,
        HWCall.rpioPwmSetRange 12 1024] := by
  have h := doPWM_pwm_lowWidth_config_error (mkPin 7) (mkPin 12) hwAllOk 1000 2 1000
    (by rw [antiPulseWidthOf_overlong_pulse, jleB_num_num]; norm_num) rfl rfl rfl
  exact ⟨h.1, h.2.2.2.1, h.2.2.2.2⟩

/-- C3 counterexample: a pin in the Open state that performs a successful
`close` keeps `state = open` — the source never assigns `this.state` in
`close`, so the state does not become Closed as the claim says. -/
theorem close_success_leaves_state_open :
    (({ number := 7, state := PinState.opened } : Pin).close hwAllOk none false).outcome =
      Outcome.fulfilled (JSValue.pinV { number := 7, state := PinState.opened }) ∧
    (({ number := 7, state := PinState.opened } : Pin).close hwAllOk none false).pin.state =
      PinState.opened ∧
    (({ number := 7, state := PinState.opened } : Pin).close hwAllOk none false).pin.state ≠
      PinState.closed := by
  refine ⟨?_, ?_, ?_⟩ <;> simp [Pin.close, Pin.isClosed, hwAllOk]

/-- C3 (amended): `state` becomes Open exactly when an `open` settles
successfully and Unknown when `open` fails; `close` never modifies `state`,
neither on success nor on failure. -/
theorem pin_state_lifecycle (p : Pin) (hw : HW) (force : Bool) (thenB : Option CloseBehavior) :
    ((∃ v, (p.openPin hw force).outcome = Outcome.fulfilled v) →
      (p.openPin hw force).pin.state = PinState.opened) ∧
    ((∃ e, (p.openPin hw force).outcome = Outcome.rejected e) →
      (p.openPin hw force).pin.state = PinState.unknown) ∧
    (p.close hw thenB force).pin.state = p.state := by
  refine ⟨?_, ?_, ?_⟩
  · rintro ⟨v, hv⟩
    by_cases h1 : (p.isOpen && !force) = true
    · have hps : p.state = PinState.opened := by
        have h2 := ((Bool.and_eq_true _ _).mp h1).1
        simpa [Pin.isOpen] using h2
      simp [Pin.openPin, h1, hps]
    · by_cases h2 : hw.openOk p.number = true
      · simp [Pin.openPin, h1, h2]
      · simp [Pin.openPin, h1, h2] at hv
  · rintro ⟨e, hv⟩
    by_cases h1 : (p.isOpen && !force) = true
    · simp [Pin.openPin, h1] at hv
    · by_cases h2 : hw.openOk p.number = true
      · simp [Pin.openPin, h1, h2] at hv
      · simp [Pin.openPin, h1, h2]
  · by_cases h1 : (p.isClosed && !force) = true
    · simp [Pin.close, h1]
    · by_cases h2 : hw.closeOk p.number = true <;> simp [Pin.close, h1, h2]

theorem pin_state_lifecycle_witness :
    ((mkPin 7).openPin hwAllOk false).pin.state = PinState.opened ∧
    ((mkPin 7).close hwAllOk none false).pin.state = PinState.unknown := by
  have h := pin_state_lifecycle (mkPin 7) hwAllOk false none
  refine ⟨h.1 ⟨JSValue.pinV { number := 7, state := PinState.opened }, ?_⟩, ?_⟩
  · simp [Pin.openPin, mkPin, Pin.isOpen, hwAllOk]
  · rw [h.2.2]; rfl

/-- C4: evaluation of `write` at a concrete input on which every hardware
call succeeds, and at one where `open` fails.  The hardware sequence is as
specified — open, drive the level selected by the value, close with
PIN_PRESERVE — but the promise settles on the wrong channel in every case:
on success it REJECTS with the pin, and on open failure it FULFILLS with the
error, because the source's promise executor is written
`new Promise((reject, resolve) => ...)` with the parameters in swapped
positions. -/
theorem write_promise_channels_swapped :
    ((mkPin 7).write hwAllOk true).trace =
      [HWCall.rpioOpen 7 Mode.OUTPUT, HWCall.rpioWrite 7 1,
        HWCall.rpioClose 7 CloseBehavior.PIN_PRESERVE] ∧
    ((mkPin 7).write hwAllOk true).outcome =
      Outcome.rejected (JSValue.pinV { number := 7, state := PinState.opened }) ∧
    ((mkPin 7).write hwAllOk false).trace =
      [HWCall.rpioOpen 7 Mode.OUTPUT, HWCall.rpioWrite 7 0,
        HWCall.rpioClose 7 CloseBehavior.PIN_PRESERVE] ∧
    ((mkPin 7).write hwAllOk false).outcome =
      Outcome.rejected (JSValue.pinV { number := 7, state := PinState.opened }) ∧
    ((mkPin 7).write hwOpenFails true).outcome =
      Outcome.fulfilled (JSValue.errV (Err.rpioOpenError 7)) := by
  refine ⟨?_, ?_, ?_, ?_, ?_⟩ <;> simp [Pin.write, Pin.openPin, Pin.close, mkPin,
    Pin.isOpen, Pin.isClosed, hwAllOk, hwOpenFails]

/-- C5: `scheduleEventsForTimes` invokes its callback with an error and
creates zero jobs exactly when the two lists have different lengths; with
equal lengths `n` it schedules `events[i]` at `times[i]` for each index in
order and invokes `callback(null, jobs)` with the `n` job handles in the
same order. -/
theorem scheduleEventsForTimes_spec {Time Event Job : Type} (sj : Time → Event → Job)
    (events : List Event) (times : List Time) :
    ((scheduleEventsForTimes sj events times).cbErr = true ∧
      (scheduleEventsForTimes sj events times).scheduled = [] ↔
        events.length ≠ times.length) ∧
    (events.length = times.length →
      (scheduleEventsForTimes sj events times).cbErr = false ∧
      (scheduleEventsForTimes sj events times).scheduled = times.zip events ∧
      (scheduleEventsForTimes sj events times).cbVal =
        some (SchedValue.list (List.zipWith sj times events)) ∧
      (List.zipWith sj times events).length = events.length ∧
      (∀ (i : ℕ) (t : Time) (e : Event), times[i]? = some t → events[i]? = some e →
        (List.zipWith sj times events)[i]? = some (sj t e))) := by
  by_cases h : times.length = events.length
  · constructor
    · rw [scheduleEventsForTimes, if_neg (by simp [h])]
      simp [h]
    · intro h2
      rw [scheduleEventsForTimes, if_neg (by simp [h])]
      refine ⟨rfl, rfl, rfl, ?_, ?_⟩
      · rw [List.length_zipWith, h, Nat.min_self]
      · intro i t e ht he
        rw [List.getElem?_zipWith, ht, he]
  · constructor
    · rw [scheduleEventsForTimes, if_pos h]
      simpa using fun h2 => h h2.symm
    · intro h2
      exact absurd h2.symm h

theorem scheduleEventsForTimes_spec_witness :
    (scheduleEventsForTimes Prod.mk [(10 : ℕ), 20] [(5 : ℤ), 6]).cbErr = false ∧
    (scheduleEventsForTimes Prod.mk [(10 : ℕ), 20] [(5 : ℤ), 6]).cbVal =
      some (SchedValue.list [((5 : ℤ), (10 : ℕ)), (6, 20)]) := by
  have h := (scheduleEventsForTimes_spec Prod.mk [(10 : ℕ), 20] [(5 : ℤ), 6]).2 (by decide)
  exact ⟨h.1, h.2.2.1.trans rfl⟩

/-- C6 counterexample: a successful `scheduleEventForTime` hands the callback
a one-element LIST of job handles — the payload is `SchedValue.list [job]`,
which is not the scalar `SchedValue.single job` the claim requires. -/
theorem scheduleEventForTime_list_not_scalar :
    (scheduleEventForTime Prod.mk (10 : ℕ) (5 : ℤ)).cbVal =
      some (SchedValue.list [((5 : ℤ), (10 : ℕ))]) ∧
    SchedValue.list [((5 : ℤ), (10 : ℕ))] ≠ SchedValue.single ((5 : ℤ), (10 : ℕ)) :=
  ⟨rfl, fun h => SchedValue.noConfusion h⟩

/-- C6 (amended): `scheduleEventForTime(event, time, callback)` passes the
caller's callback unchanged to `scheduleEventsForTimes([event], [time])`, so
on success the callback receives the one-element list `[job]`, not the job
as a scalar. -/
theorem scheduleEventForTime_singleton_list {Time Event Job : Type} (sj : Time → Event → Job)
    (event : Event) (time : Time) :
    scheduleEventForTime sj event time = scheduleEventsForTimes sj [event] [time] ∧
    (scheduleEventForTime sj event time).cbErr = false ∧
    (scheduleEventForTime sj event time).cbVal =
      some (SchedValue.list [sj time event]) :=
  ⟨rfl, rfl, rfl⟩

/-- C7: `scheduleEventsForIntervals` reads the clock exactly once (the read
counter advances from `k` to `k + 1`), converts every interval `i` to the
absolute time `now + intervals[i]` with that single shared `now = clock k`,
and delegates the resulting times list to `scheduleEventsForTimes`. -/
theorem scheduleEventsForIntervals_single_now {Event Job : Type} (sj : ℤ → Event → Job)
    (clock : ℕ → ℤ) (k : ℕ) (events : List Event) (intervals : List ℤ) :
    (scheduleEventsForIntervals sj clock k events intervals).2 = k + 1 ∧
    (scheduleEventsForIntervals sj clock k events intervals).1 =
      scheduleEventsForTimes sj events
        (intervals.map (fun interval => clock k + interval)) :=
  ⟨rfl, rfl⟩

/-- C8 counterexample: at `pulseWidth = 1, frequency = -1, duration = 1000`
(so `frequency ≤ 0`) the cycle count is `-1`, not `0`, and `doPWM` rejects
with the waveform-configuration error instead of completing without error. -/
theorem doPWM_negative_frequency_rejects :
    cyclesOf (-1) 1000 = -1 ∧
    ((mkPin 7).doPWM hwAllOk 1 (-1) 1000).outcome =
      Outcome.rejected (JSValue.errV (Err.waveformConfigError 1 (-1))) := by
  refine ⟨cyclesOf_neg1_1000, ?_⟩
  simp [Pin.doPWM, Pin.openPin, mkPin, Pin.isOpen, hwAllOk, antiPulseWidthOf_neg_freq,
    jleB_num_num]

/-- C8 (amended): for `frequency = 0` or `duration = 0` (rather than all
nonpositive values, where the negative cases can reject), `cycles = 0`, the
engine performs zero high/low iterations — no drive call appears in the
trace — and `doPWM` completes without error (fulfilling with a pin),
provided the surrounding open and close hardware calls succeed. -/
theorem doPWM_zero_freq_or_duration_noop (p : Pin) (hw : HW)
    (pulseWidth frequency duration : ℚ) (h0 : frequency = 0 ∨ duration = 0)
    (hopen : hw.openOk p.number = true) (hclose : hw.closeOk p.number = true) :
    cyclesOf frequency duration = 0 ∧
    (∀ c ∈ (p.doPWM hw pulseWidth frequency duration).trace, isDrive c = false) ∧
    (∃ v, (p.doPWM hw pulseWidth frequency duration).outcome =
      Outcome.fulfilled (JSValue.pinV v)) := by
  have hc : cyclesOf frequency duration = 0 := by
    rcases h0 with h | h <;> simp [cyclesOf, h]
  have ha := antiPulseWidthOf_nan pulseWidth frequency duration hc
  refine ⟨hc, ?_, ?_⟩
  · by_cases hp : p.isOpen = true
    · have hps : p.state = PinState.opened := by simpa [Pin.isOpen] using hp
      simp [Pin.doPWM, Pin.openPin, Pin.close, Pin.isOpen, Pin.isClosed, hps, hopen,
        hclose, ha, hc, jleB_nan_left, isDrive]
    · have hps : ¬p.state = PinState.opened := by simpa [Pin.isOpen] using hp
      simp [Pin.doPWM, Pin.openPin, Pin.close, Pin.isOpen, Pin.isClosed, hps, hopen,
        hclose, ha, hc, jleB_nan_left, isDrive]
  · by_cases hp : p.isOpen = true
    · have hps : p.state = PinState.opened := by simpa [Pin.isOpen] using hp
      exact ⟨p, by simp [Pin.doPWM, Pin.openPin, Pin.close, Pin.isOpen, Pin.isClosed,
        hps, hopen, hclose, ha, hc, jleB_nan_left]⟩
    · have hps : ¬p.state = PinState.opened := by simpa [Pin.isOpen] using hp
      exact ⟨{ number := p.number, state := PinState.opened },
        by simp [Pin.doPWM, Pin.openPin, Pin.close, Pin.isOpen, Pin.isClosed, hps, hopen,
          hclose, ha, hc, jleB_nan_left]⟩

theorem doPWM_zero_freq_or_duration_noop_witness :
    cyclesOf 0 5000 = 0 ∧
    (∃ v, ((mkPin 7).doPWM hwAllOk 1 0 5000).outcome =
      Outcome.fulfilled (JSValue.pinV v)) := by
  have h := doPWM_zero_freq_or_duration_noop (mkPin 7) hwAllOk 1 0 5000 (Or.inl rfl) rfl rfl
  exact ⟨h.1, h.2.2⟩

/-- C9: `pwm` on any pin whose number is not 12 rejects immediately with the
NotSupported error, performing no hardware call at all and leaving the pin
unchanged. -/
theorem pwm_not_pin12_not_supported (p : Pin) (hw : HW) (pulseWidth frequency duration : ℚ)
    (h : p.number ≠ 12) :
    (p.pwm hw pulseWidth frequency duration).outcome =
      Outcome.rejected (JSValue.errV (Err.notSupported p.number)) ∧
    (p.pwm hw pulseWidth frequency duration).trace = [] ∧
    (p.pwm hw pulseWidth frequency duration).pin = p := by
  refine ⟨?_, ?_, ?_⟩ <;> simp [Pin.pwm, h]

theorem pwm_not_pin12_not_supported_witness :
    ((mkPin 7).pwm hwAllOk (3 / 2) 50 5000).outcome =
      Outcome.rejected (JSValue.errV (Err.notSupported 7)) ∧
    ((mkPin 7).pwm hwAllOk (3 / 2) 50 5000).trace = [] := by
  have h := pwm_not_pin12_not_supported (mkPin 7) hwAllOk (3 / 2) 50 5000
    (by norm_num [mkPin])
  exact ⟨h.1, h.2.1⟩

/-- C10: a `close` with no explicit reset behavior releases the pin with
PIN_RESET (reset to default), not PIN_PRESERVE, and consequently the delayed
close inside `setHighFor` resets the pin by default. -/
theorem close_default_reset_behavior (p : Pin) (hw : HW) (force : Bool)
    (duration perSecond : ℚ) (hnc : (p.isClosed && !force) = false)
    (hopen : hw.openOk p.number = true) (hwrite : hw.writeOk p.number = true) :
    (p.close hw none force).trace = [HWCall.rpioClose p.number CloseBehavior.PIN_RESET] ∧
    HWCall.rpioClose p.number CloseBehavior.PIN_RESET ∈
      (p.setHighFor hw duration perSecond).trace := by
  constructor
  · by_cases h2 : hw.closeOk p.number = true <;> simp [Pin.close, hnc, h2]
  · by_cases hp : p.isOpen = true
    · have hps : p.state = PinState.opened := by simpa [Pin.isOpen] using hp
      by_cases h2 : hw.closeOk p.number = true <;>
        simp [Pin.setHighFor, Pin.openPin, Pin.close, Pin.isOpen, Pin.isClosed, hps,
          hopen, hwrite, h2]
    · have hps : ¬p.state = PinState.opened := by simpa [Pin.isOpen] using hp
      by_cases h2 : hw.closeOk p.number = true <;>
        simp [Pin.setHighFor, Pin.openPin, Pin.close, Pin.isOpen, Pin.isClosed, hps,
          hopen, hwrite, h2]

theorem close_default_reset_behavior_witness :
    ((mkPin 7).close hwAllOk none false).trace =
      [HWCall.rpioClose 7 CloseBehavior.PIN_RESET] ∧
    HWCall.rpioClose 7 CloseBehavior.PIN_RESET ∈
      ((mkPin 7).setHighFor hwAllOk 100 1000).trace := by
  have h := close_default_reset_behavior (mkPin 7) hwAllOk false 100 1000 rfl rfl rfl
  exact ⟨h.1, h.2⟩

end Deoxy
